import Mathlib

/-!
Shallow embedding of the optimizer core in `thinc/neural/optimizers.pyx`:
the SGD, Adam and Eve optimizers. Vectors are lists of reals, the per-key
state maps of an optimizer instance are functions from keys to optional
buffers, and each Python method that mutates state is embedded as a function
returning the new state together with the new weight and gradient buffers.
The numeric-operations collaborator (the `ops` object) is not part of the
source tree; its operations are modelled from the spec where noted.
-/

namespace ThincOptimizers

noncomputable section

/-- A weight, gradient or moment buffer: a vector of reals. -/
abbrev Vec := List ℝ

/-- A parameter-group key; `none` is the absent (Python `None`) key. -/
abbrev Key := Option ℕ

/-- A per-key buffer map (a Python dict holding vectors). -/
abbrev BufMap := Key → Option Vec

/-- The empty buffer map. -/
def emptyBufMap : BufMap := fun _ => none

/-- Dict insertion (also overwriting) for buffer maps. -/
def BufMap.insert (m : BufMap) (k : Key) (v : Vec) : BufMap :=
  fun k2 => if k2 = k then some v else m k2

/-- Sum of squares of the entries of a vector. -/
def sumSq (v : Vec) : ℝ := (v.map fun x => x * x).sum

/-- Euclidean (global) norm of a vector. -/
def norm2 (v : Vec) : ℝ := Real.sqrt (sumSq v)

/-- Modelled from the spec: `ops.allocate`, giving a zero-initialized buffer
of the given length (the numeric-operations collaborator is outside the
source tree). -/
def allocate (n : ℕ) : Vec := List.replicate n 0

/-- Modelled from the spec: `ops.clip_gradient` clips the gradient in place
so that its global norm does not exceed the given ceiling; a gradient whose
norm is already within the ceiling is unchanged, otherwise it is rescaled so
that its norm equals the ceiling. -/
def clip_gradient (g : Vec) (maxNorm : ℝ) : Vec :=
  if norm2 g ≤ maxNorm then g else g.map fun x => x * (maxNorm / norm2 g)

/-- Modelled from the spec: `ops.update_averages` updates the running-average
buffer as a count-weighted function of the current weights and the counter
value. -/
def update_averages (avg weights : Vec) (nr_upd : ℕ) : Vec :=
  List.zipWith (fun a w => a + (w - a) / ((nr_upd : ℝ) + 1)) avg weights

/-- Modelled from the spec: the fused Adam kernel `ops.adam`, applying the
canonical rule with the two moment-decay coefficients it is passed:
first moment `b1 * m + (1 - b1) * g`, second moment `b2 * m + (1 - b2) * g * g`,
weights `w - lr * m1 / (sqrt m2 + eps)`, all elementwise. Returns the new
weights, first moments and second moments. -/
def ops_adam (weights gradient m1 m2 : Vec) (b1 b2 eps lr : ℝ) :
    Vec × Vec × Vec :=
  let m1n := List.zipWith (fun m g => b1 * m + (1 - b1) * g) m1 gradient
  let m2n := List.zipWith (fun m g => b2 * m + (1 - b2) * (g * g)) m2 gradient
  (List.zipWith (fun w p => w - lr * p.1 / (Real.sqrt p.2 + eps)) weights (m1n.zip m2n),
   m1n, m2n)

/-- `linear_decay(rate, decay, nr_upd)` from the source. -/
def linear_decay (rate decay : ℝ) (nr_upd : ℕ) : ℝ :=
  rate * 1 / (1 + decay * (nr_upd : ℝ))

/-- The running-average step shared by the tail of `SGD.__call__` and
`Adam.__call__`: when averages are enabled, lazily allocate the per-key
average buffer and update it from the current (already updated) weights. -/
def updateAveragesMap (averages : Option BufMap) (key : Key) (weightsNew : Vec)
    (wlen nr_upd : ℕ) : Option BufMap :=
  match averages with
  | none => none
  | some avs =>
      some (avs.insert key
        (update_averages ((avs key).getD (allocate wlen)) weightsNew nr_upd))

/-- State of an `SGD` optimizer instance. -/
structure SGDState where
  alpha : ℝ
  mu : ℝ
  decay : ℝ
  max_grad_norm : ℝ
  momentums : BufMap
  averages : Option BufMap
  nr_update : Key → ℕ

/-- `SGD.__init__(ops, lr, momentum=0.0, decay=0.0, **settings)`; the
`averages` setting defaults to true. -/
def SGDState.mkInit (lr momentum decay : ℝ) (averagesOn : Bool) : SGDState :=
  { alpha := lr, mu := momentum, decay := decay, max_grad_norm := 100,
    momentums := emptyBufMap,
    averages := if averagesOn then some emptyBufMap else none,
    nr_update := fun _ => 0 }

/-- `SGD.lr(nr_upd)`. -/
def SGDState.lr (st : SGDState) (nr_upd : ℕ) : ℝ :=
  linear_decay st.alpha st.decay nr_upd

/-- `SGD.set_loss(loss)` is a no-op. -/
def SGDState.set_loss (st : SGDState) (_loss : ℝ) : SGDState := st

/-- `SGD.__call__(weights, gradient, key=None, lr_scale=1.)`. Returns the new
optimizer state, the new weights and the new gradient. -/
def SGDState.call (st : SGDState) (weights gradient : Vec)
    (key : Key) (lr_scale : ℝ) : SGDState × Vec × Vec :=
  let nrUpdateNew := fun k => if k = key then st.nr_update k + 1 else st.nr_update k
  let nr_upd := st.nr_update key + 1
  let lr := st.lr nr_upd * lr_scale
  let g1 := clip_gradient gradient st.max_grad_norm
  if key = none ∨ st.mu = 0 then
    let weightsNew := List.zipWith (fun w g => w - lr * g) weights g1
    ({ st with nr_update := nrUpdateNew,
               averages := updateAveragesMap st.averages key weightsNew weights.length nr_upd },
     weightsNew, List.replicate g1.length (0 : ℝ))
  else
    let mom := List.zipWith (fun m g => m + g * lr)
      (((st.momentums key).getD (allocate weights.length)).map fun m => m * st.mu) g1
    let weightsNew := List.zipWith (fun w m => w - m) weights mom
    ({ st with momentums := st.momentums.insert key mom,
               nr_update := nrUpdateNew,
               averages := updateAveragesMap st.averages key weightsNew weights.length nr_upd },
     weightsNew, List.replicate g1.length (0 : ℝ))

/-- State of an `Adam` optimizer instance. -/
structure AdamState where
  alpha : ℝ
  L2 : ℝ
  b1 : ℝ
  b2 : ℝ
  eps : ℝ
  decay : ℝ
  mom1 : BufMap
  mom2 : BufMap
  averages : Option BufMap
  nr_update : Key → ℕ
  max_grad_norm : ℝ
  d : ℝ
  f : ℝ

/-- `Adam.__init__(ops, lr, L2=1e-4, beta1=0.90, beta2=0.999, eps=1e-08, decay=0.0)`. -/
def AdamState.mkInit (lr L2 beta1 beta2 eps decay : ℝ) : AdamState :=
  { alpha := lr, L2 := L2, b1 := beta1, b2 := beta2, eps := eps, decay := decay,
    mom1 := emptyBufMap, mom2 := emptyBufMap, averages := some emptyBufMap,
    nr_update := fun _ => 0, max_grad_norm := 100, d := 1, f := 0 }

/-- `Adam.lr(nr_upd)`: bias-corrected, linearly decayed learning rate
`alpha * sqrt(fix2) / fix1` with `fix1 = 1 - b1 ^ n` and `fix2 = 1 - b2 ^ n`. -/
def AdamState.lr (st : AdamState) (nr_upd : ℕ) : ℝ :=
  linear_decay st.alpha st.decay nr_upd * Real.sqrt (1 - st.b2 ^ nr_upd) / (1 - st.b1 ^ nr_upd)

/-- `Adam.set_loss(loss)` is a no-op. -/
def AdamState.set_loss (st : AdamState) (_loss : ℝ) : AdamState := st

/-- Result of `Adam.__call__`: `ok = false` when one of the leading asserts
fired, in which case the state, weights and gradient fields carry the
unchanged inputs (the asserts precede every mutation in the source). -/
structure AdamOutcome where
  ok : Bool
  state : AdamState
  weights : Vec
  gradient : Vec

/-- `Adam.__call__(weights, gradient, lr_scale=1., key=None)`. The asserts on
the key and gradient length come first. Note that the source binds its local
`b2` to `self.b1` before invoking the fused kernel, so `st.b1` is passed for
both moment-decay coefficients. -/
def AdamState.call (st : AdamState) (weights gradient : Vec)
    (lr_scale : ℝ) (key : Key) : AdamOutcome :=
  if key = none ∨ gradient.length = 0 then ⟨false, st, weights, gradient⟩ else
  let m1buf := (st.mom1 key).getD (allocate weights.length)
  let m2buf := (st.mom2 key).getD (allocate weights.length)
  let nrUpdateNew := fun k => if k = key then st.nr_update k + 1 else st.nr_update k
  let nr_upd := st.nr_update key + 1
  let g1 := List.zipWith (fun g w => g + st.L2 * w) gradient weights
  let g2 := clip_gradient g1 ((g1.length : ℝ) / 100)
  let lr := st.lr nr_upd * lr_scale
  let r := ops_adam weights g2 m1buf m2buf st.b1 st.b1 st.eps lr
  ⟨true,
   { st with mom1 := st.mom1.insert key r.2.1,
             mom2 := st.mom2.insert key r.2.2,
             nr_update := nrUpdateNew,
             averages := updateAveragesMap st.averages key r.1 weights.length nr_upd },
   r.1, List.replicate g2.length (0 : ℝ)⟩

/-- State of an `Eve` wrapper around an inner optimizer of state type `σ`. -/
structure EveState (σ : Type) where
  optimizer : σ
  b3 : ℝ
  lower_threshold : ℝ
  upper_threshold : ℝ
  d : ℝ
  f : Option ℝ

/-- `Eve.__init__(optimizer)`. -/
def EveState.mkInit {σ : Type} (opt : σ) : EveState σ :=
  { optimizer := opt, b3 := 999/1000, lower_threshold := 1/10,
    upper_threshold := 10, d := 1, f := none }

/-- `Eve._get_c(loss, old_f)`. The source also computes an upper value
`Delta` in each branch, but the returned expression
`min(max(delta, loss / old_f), delta)` uses only the lower value `delta`. -/
def EveState.get_c {σ : Type} (st : EveState σ) (loss old_f : ℝ) : ℝ :=
  let delta := if loss < old_f then st.lower_threshold + 1 else 1 / (st.upper_threshold + 1)
  min (max delta (loss / old_f)) delta

/-- `Eve.set_loss(loss)`. -/
def EveState.set_loss {σ : Type} (st : EveState σ) (loss : ℝ) :
    EveState σ :=
  match st.f with
  | none => { st with f := some loss }
  | some old_f =>
      let c := st.get_c loss old_f
      let new_f := c * loss
      let r := |new_f - old_f| / min new_f old_f
      { st with d := st.d + (1 - st.b3) * (r - st.d), f := some new_f }

/-- `Eve.__call__(weights, gradient, key=None)` with an SGD inner optimizer:
delegates to the wrapped optimizer with `lr_scale = d`. -/
def EveState.callSGD (est : EveState SGDState) (weights gradient : Vec)
    (key : Key) : EveState SGDState × Vec × Vec :=
  let r := est.optimizer.call weights gradient key est.d
  ({ est with optimizer := r.1 }, r.2.1, r.2.2)

/-- `Eve.__call__(weights, gradient, key=None)` with an Adam inner optimizer:
delegates to the wrapped optimizer with `lr_scale = d`. -/
def EveState.callAdam (est : EveState AdamState) (weights gradient : Vec)
    (key : Key) : EveState AdamState × AdamOutcome :=
  let r := est.optimizer.call weights gradient est.d key
  ({ est with optimizer := r.state }, r)

/-- Concrete SGD instance with averages enabled (counterexample and witness
input). -/
def sgdA : SGDState := SGDState.mkInit 1 0 0 true

/-- Concrete SGD instance with averages disabled (counterexample and witness
input). -/
def sgdB : SGDState := SGDState.mkInit 1 0 0 false

/-- Concrete Adam instance with distinct `beta1` and `beta2` and zero base
rate and L2 (counterexample input). -/
def adamA : AdamState := AdamState.mkInit 0 0 (1/2) (3/4) (1/100) 0

/-- Concrete Adam instance with `beta1 = beta2 = 9/10` (witness input). -/
def adamB : AdamState := AdamState.mkInit 1 (1/10000) (9/10) (9/10) (1/100000000) 0

/-- Concrete Adam instance with the default configuration (witness input). -/
def adamC : AdamState := AdamState.mkInit 1 (1/10000) (9/10) (999/1000) (1/100000000) 0

/-- Concrete Eve state over a trivial inner optimizer with a baseline already
set (witness input). -/
def eveU : EveState Unit :=
  { optimizer := (), b3 := 999/1000, lower_threshold := 1/10,
    upper_threshold := 10, d := 1, f := some 2 }

/-- Concrete Eve wrapper around `sgdA` (witness input). -/
def eveS : EveState SGDState := EveState.mkInit sgdA

/-- Concrete Eve wrapper around `adamC` (witness input). -/
def eveA : EveState AdamState := EveState.mkInit adamC

theorem length_clip_gradient (g : Vec) (t : ℝ) :
    (clip_gradient g t).length = g.length := by
  unfold clip_gradient
  split_ifs <;> simp

theorem sumSq_cons (x : ℝ) (xs : Vec) : sumSq (x :: xs) = x * x + sumSq xs := by
  simp [sumSq]

theorem sumSq_nonneg (v : Vec) : 0 ≤ sumSq v := by
  induction v with
  | nil => simp [sumSq]
  | cons x xs ih => rw [sumSq_cons]; exact add_nonneg (mul_self_nonneg x) ih

theorem sumSq_map_mul (v : Vec) (c : ℝ) :
    sumSq (v.map fun x => x * c) = c * c * sumSq v := by
  induction v with
  | nil => simp [sumSq]
  | cons x xs ih => rw [List.map_cons, sumSq_cons, sumSq_cons, ih]; ring

theorem norm2_singleton (x : ℝ) (hx : 0 ≤ x) : norm2 [x] = x := by
  rw [norm2, show sumSq [x] = x * x by simp [sumSq]]
  exact Real.sqrt_mul_self hx

theorem norm2_clip_le (g : Vec) (t : ℝ) (ht : 0 ≤ t) :
    norm2 (clip_gradient g t) ≤ t := by
  unfold clip_gradient
  split_ifs with h
  · exact h
  · push_neg at h
    have hn : 0 < norm2 g := lt_of_le_of_lt ht h
    rw [norm2, sumSq_map_mul]
    rw [show t / norm2 g * (t / norm2 g) * sumSq g = (t / norm2 g) ^ 2 * sumSq g by ring]
    rw [Real.sqrt_mul (sq_nonneg _), Real.sqrt_sq (div_nonneg ht (le_of_lt hn))]
    rw [show norm2 g = Real.sqrt (sumSq g) from rfl] at hn ⊢
    rw [div_mul_cancel₀ t (ne_of_gt hn)]

theorem adam_call_neg {st : AdamState} {w g : Vec} {s : ℝ} {key : Key}
    (h : key = none ∨ g.length = 0) :
    st.call w g s key = ⟨false, st, w, g⟩ := by
  unfold AdamState.call
  rw [if_pos h]

theorem adam_call_pos {st : AdamState} {w g : Vec} {s : ℝ} {key : Key}
    (h : ¬(key = none ∨ g.length = 0)) :
    st.call w g s key =
      (let g1 := List.zipWith (fun gi wi => gi + st.L2 * wi) g w
       let g2 := clip_gradient g1 ((g1.length : ℝ) / 100)
       let r := ops_adam w g2 ((st.mom1 key).getD (allocate w.length))
                 ((st.mom2 key).getD (allocate w.length)) st.b1 st.b1 st.eps
                 (st.lr (st.nr_update key + 1) * s)
       ⟨true,
        { st with mom1 := st.mom1.insert key r.2.1,
                  mom2 := st.mom2.insert key r.2.2,
                  nr_update := fun k => if k = key then st.nr_update k + 1 else st.nr_update k,
                  averages := updateAveragesMap st.averages key r.1 w.length (st.nr_update key + 1) },
        r.1, List.replicate g2.length (0 : ℝ)⟩) := by
  unfold AdamState.call
  rw [if_neg h]

theorem adam_call_ok_iff (st : AdamState) (w g : Vec) (s : ℝ) (key : Key) :
    (st.call w g s key).ok = true ↔ ¬(key = none ∨ g.length = 0) := by
  by_cases h : key = none ∨ g.length = 0
  · rw [adam_call_neg h]
    exact iff_of_false (fun hf => Bool.false_ne_true hf) (fun hn => hn h)
  · rw [adam_call_pos h]
    exact iff_of_true rfl h

theorem sgd_call_gradient (st : SGDState) (w g : Vec) (key : Key) (s : ℝ) :
    (st.call w g key s).2.2 = List.replicate g.length (0 : ℝ) := by
  unfold SGDState.call
  split_ifs <;> simp [length_clip_gradient]

theorem adam_call_gradient (st : AdamState) (w g : Vec) (s : ℝ) (key : Key)
    (hlen : w.length = g.length) (hok : (st.call w g s key).ok = true) :
    (st.call w g s key).gradient = List.replicate g.length (0 : ℝ) := by
  have h := (adam_call_ok_iff st w g s key).1 hok
  rw [adam_call_pos h]
  simp [length_clip_gradient, hlen]

/-- C1: for every optimizer (SGD, Adam, and Eve wrapping either), every
update call that returns successfully leaves the gradient buffer equal to
the zero vector of its original length, on every code path. -/
theorem C1_gradient_zeroed :
    (∀ (st : SGDState) (w g : Vec) (key : Key) (s : ℝ),
        (st.call w g key s).2.2 = List.replicate g.length (0 : ℝ)) ∧
    (∀ (st : AdamState) (w g : Vec) (s : ℝ) (key : Key),
        w.length = g.length → (st.call w g s key).ok = true →
        (st.call w g s key).gradient = List.replicate g.length (0 : ℝ)) ∧
    (∀ (est : EveState SGDState) (w g : Vec) (key : Key),
        (est.callSGD w g key).2.2 = List.replicate g.length (0 : ℝ)) ∧
    (∀ (est : EveState AdamState) (w g : Vec) (key : Key),
        w.length = g.length → ((est.callAdam w g key).2).ok = true →
        ((est.callAdam w g key).2).gradient = List.replicate g.length (0 : ℝ)) := by
  refine ⟨sgd_call_gradient, adam_call_gradient, ?_, ?_⟩
  · intro est w g key
    unfold EveState.callSGD
    exact sgd_call_gradient est.optimizer w g key est.d
  · intro est w g key hlen hok
    unfold EveState.callAdam at hok ⊢
    exact adam_call_gradient est.optimizer w g est.d key hlen hok

/-- Witness for C1 at concrete inputs. -/
theorem C1_gradient_zeroed_witness :
    (sgdA.call [0] [0] none 1).2.2 = List.replicate 1 (0 : ℝ) ∧
    (adamC.call [0] [0] 1 (some 0)).gradient = List.replicate 1 (0 : ℝ) ∧
    (eveS.callSGD [0] [0] none).2.2 = List.replicate 1 (0 : ℝ) ∧
    ((eveA.callAdam [0] [0] (some 0)).2).gradient = List.replicate 1 (0 : ℝ) := by
  have hok1 : (adamC.call [0] [0] 1 (some 0)).ok = true :=
    (adam_call_ok_iff adamC [0] [0] 1 (some 0)).2 (by simp)
  have hok2 : ((eveA.callAdam [0] [0] (some 0)).2).ok = true := by
    unfold EveState.callAdam
    exact (adam_call_ok_iff eveA.optimizer [0] [0] eveA.d (some 0)).2 (by simp)
  exact ⟨C1_gradient_zeroed.1 sgdA [0] [0] none 1,
         C1_gradient_zeroed.2.1 adamC [0] [0] 1 (some 0) rfl hok1,
         C1_gradient_zeroed.2.2.1 eveS [0] [0] none,
         C1_gradient_zeroed.2.2.2 eveA [0] [0] (some 0) rfl hok2⟩

/-- C5: given weights and gradient of equal length, an Adam update fails
(its leading asserts fire, before the update proceeds) if and only if the
key is absent or the gradient is empty. -/
theorem C5_adam_preconditions (st : AdamState) (w g : Vec) (s : ℝ) (key : Key)
    (_hlen : w.length = g.length) :
    (st.call w g s key).ok = false ↔ (key = none ∨ g = []) := by
  by_cases h : key = none ∨ g.length = 0
  · rw [adam_call_neg h]
    simp only [List.length_eq_zero] at h
    exact iff_of_true rfl h
  · rw [adam_call_pos h]
    simp only [List.length_eq_zero] at h
    exact iff_of_false (fun hf => Bool.noConfusion hf) (fun hn => h hn)

/-- Witness for C5 at a concrete input. -/
theorem C5_adam_preconditions_witness :
    ((adamC.call [0] [0] 1 none).ok = false ↔
      ((none : Key) = none ∨ ([(0 : ℝ)] : Vec) = [])) :=
  C5_adam_preconditions adamC [0] [0] 1 none rfl

/-- C10: if an Adam update is called with an absent key or an empty gradient,
the precondition check fails before any mutation: the returned state, weights
and gradient are exactly the inputs. -/
theorem C10_adam_error_atomic (st : AdamState) (w g : Vec) (s : ℝ) (key : Key)
    (h : key = none ∨ g = []) :
    st.call w g s key = ⟨false, st, w, g⟩ := by
  apply adam_call_neg
  rcases h with h | h
  · exact Or.inl h
  · exact Or.inr (by simp [h])

/-- Witness for C10 at a concrete input. -/
theorem C10_adam_error_atomic_witness :
    adamC.call [0] [0] 1 none = ⟨false, adamC, [0], [0]⟩ :=
  C10_adam_error_atomic adamC [0] [0] 1 none (Or.inl rfl)

theorem sgd_call_counter (st : SGDState) (w g : Vec) (key : Key) (s : ℝ) (k : Key) :
    (st.call w g key s).1.nr_update k =
      (if k = key then st.nr_update k + 1 else st.nr_update k) := by
  unfold SGDState.call
  by_cases h : key = none ∨ st.mu = 0
  · rw [if_pos h]
  · rw [if_neg h]

theorem adam_call_counter (st : AdamState) (w g : Vec) (s : ℝ) (key k : Key) :
    (st.call w g s key).state.nr_update k =
      (if (st.call w g s key).ok = true
        then (if k = key then st.nr_update k + 1 else st.nr_update k)
        else st.nr_update k) := by
  by_cases h : key = none ∨ g.length = 0
  · rw [adam_call_neg h]
    simp
  · rw [adam_call_pos h]
    simp

/-- C9: update counters start at 0 (absent) in a fresh optimizer; every
successful update call increments exactly the called key and leaves all
other counters unchanged (a failed Adam call changes none); `set_loss` never
touches counters; hence counters never decrease. -/
theorem C9_counters :
    (∀ (lr mom dec : ℝ) (avg : Bool) (k : Key),
        (SGDState.mkInit lr mom dec avg).nr_update k = 0) ∧
    (∀ (lr L2 b1 b2 eps dec : ℝ) (k : Key),
        (AdamState.mkInit lr L2 b1 b2 eps dec).nr_update k = 0) ∧
    (∀ (st : SGDState) (w g : Vec) (key : Key) (s : ℝ) (k : Key),
        (st.call w g key s).1.nr_update k =
          (if k = key then st.nr_update k + 1 else st.nr_update k) ∧
        st.nr_update k ≤ (st.call w g key s).1.nr_update k) ∧
    (∀ (st : AdamState) (w g : Vec) (s : ℝ) (key k : Key),
        (st.call w g s key).state.nr_update k =
          (if (st.call w g s key).ok = true
            then (if k = key then st.nr_update k + 1 else st.nr_update k)
            else st.nr_update k) ∧
        st.nr_update k ≤ (st.call w g s key).state.nr_update k) ∧
    (∀ (est : EveState SGDState) (w g : Vec) (key : Key) (k : Key),
        (est.callSGD w g key).1.optimizer.nr_update k =
          (if k = key then est.optimizer.nr_update k + 1 else est.optimizer.nr_update k)) ∧
    (∀ (est : EveState AdamState) (w g : Vec) (key k : Key),
        (est.callAdam w g key).1.optimizer.nr_update k =
          (if ((est.callAdam w g key).2).ok = true
            then (if k = key then est.optimizer.nr_update k + 1 else est.optimizer.nr_update k)
            else est.optimizer.nr_update k)) ∧
    (∀ (st : SGDState) (l : ℝ), st.set_loss l = st) ∧
    (∀ (st : AdamState) (l : ℝ), st.set_loss l = st) ∧
    (∀ (σ : Type) (est : EveState σ) (l : ℝ), (est.set_loss l).optimizer = est.optimizer) := by
  refine ⟨fun _ _ _ _ _ => rfl, fun _ _ _ _ _ _ _ => rfl, ?_, ?_, ?_, ?_,
          fun _ _ => rfl, fun _ _ => rfl, ?_⟩
  · intro st w g key s k
    refine ⟨sgd_call_counter st w g key s k, ?_⟩
    rw [sgd_call_counter st w g key s k]
    split_ifs <;> omega
  · intro st w g s key k
    refine ⟨adam_call_counter st w g s key k, ?_⟩
    rw [adam_call_counter st w g s key k]
    split_ifs <;> omega
  · intro est w g key k
    unfold EveState.callSGD
    exact sgd_call_counter est.optimizer w g key est.d k
  · intro est w g key k
    unfold EveState.callAdam
    exact adam_call_counter est.optimizer w g est.d key k
  · intro σ est l
    unfold EveState.set_loss
    cases hf : est.f <;> rfl

/-- C3: for an Eve wrapper whose baseline is already set and whose thresholds
are the constructor constants, a subsequent `set_loss(loss)` call uses the
clamp factor `c = lowerThreshold + 1 = 11/10` when `loss < f` and
`c = 1 / (upperThreshold + 1) = 1/11` (built from the reciprocal thresholds)
when `loss >= f`; it then stores `newF = c * loss` as the new baseline and
sets `d` to `d + (1 - beta3) * (r - d)` with
`r = |newF - f| / min newF f`. -/
theorem C3_eve_set_loss {σ : Type} (est : EveState σ) (loss f0 : ℝ)
    (hf : est.f = some f0) (hlo : est.lower_threshold = 1/10)
    (hup : est.upper_threshold = 10) :
    (est.get_c loss f0 = if loss < f0 then 11/10 else 1/11) ∧
    est.set_loss loss =
      { est with
        d := est.d + (1 - est.b3) *
          (|est.get_c loss f0 * loss - f0| / min (est.get_c loss f0 * loss) f0 - est.d),
        f := some (est.get_c loss f0 * loss) } := by
  constructor
  · unfold EveState.get_c
    split_ifs with h
    · rw [min_eq_right (le_max_left _ _), hlo]
      norm_num
    · rw [min_eq_right (le_max_left _ _), hup]
      norm_num
  · unfold EveState.set_loss
    rw [hf]

/-- Witness for C3 at a concrete input (baseline 2, new loss 1). -/
theorem C3_eve_set_loss_witness :
    (eveU.get_c 1 2 = if (1 : ℝ) < 2 then 11/10 else 1/11) ∧
    eveU.set_loss 1 =
      { eveU with
        d := eveU.d + (1 - eveU.b3) *
          (|eveU.get_c 1 2 * 1 - 2| / min (eveU.get_c 1 2 * 1) 2 - eveU.d),
        f := some (eveU.get_c 1 2 * 1) } :=
  C3_eve_set_loss eveU 1 2 rfl rfl rfl

/-- C2 (amended): every successful Adam update applies the fused kernel to
the post-L2, post-clip gradient with `beta1` as BOTH moment-decay
coefficients (the source binds its local `b2` to `self.b1`), storing the
resulting moment buffers under the key and writing back the kernel weights. -/
theorem C2_adam_uses_beta1_twice (st : AdamState) (w g : Vec) (s : ℝ) (key : Key)
    (hok : (st.call w g s key).ok = true) :
    (st.call w g s key).weights =
      (ops_adam w
        (clip_gradient (List.zipWith (fun gi wi => gi + st.L2 * wi) g w)
          (((List.zipWith (fun gi wi => gi + st.L2 * wi) g w).length : ℝ) / 100))
        ((st.mom1 key).getD (allocate w.length)) ((st.mom2 key).getD (allocate w.length))
        st.b1 st.b1 st.eps (st.lr (st.nr_update key + 1) * s)).1 ∧
    (st.call w g s key).state.mom1 key =
      some (ops_adam w
        (clip_gradient (List.zipWith (fun gi wi => gi + st.L2 * wi) g w)
          (((List.zipWith (fun gi wi => gi + st.L2 * wi) g w).length : ℝ) / 100))
        ((st.mom1 key).getD (allocate w.length)) ((st.mom2 key).getD (allocate w.length))
        st.b1 st.b1 st.eps (st.lr (st.nr_update key + 1) * s)).2.1 ∧
    (st.call w g s key).state.mom2 key =
      some (ops_adam w
        (clip_gradient (List.zipWith (fun gi wi => gi + st.L2 * wi) g w)
          (((List.zipWith (fun gi wi => gi + st.L2 * wi) g w).length : ℝ) / 100))
        ((st.mom1 key).getD (allocate w.length)) ((st.mom2 key).getD (allocate w.length))
        st.b1 st.b1 st.eps (st.lr (st.nr_update key + 1) * s)).2.2 := by
  have h := (adam_call_ok_iff st w g s key).1 hok
  rw [adam_call_pos h]
  refine ⟨rfl, ?_, ?_⟩ <;> simp [BufMap.insert]

/-- C2 is false on the code as claimed: with `beta1 = 1/2`, `beta2 = 3/4`,
zero L2, zero initial moments and post-clip gradient `[1/1000]`, the update
stores second moment `1/2000000` (the `beta1` average), while the canonical
rule with `beta2` as the second-moment decay coefficient would give
`1/4000000`. -/
theorem C2_counterexample :
    (adamA.call [1] [1/1000] 1 (some 0)).state.mom2 (some 0) = some [(1/2000000 : ℝ)] ∧
    adamA.b2 * 0 + (1 - adamA.b2) * ((1/1000 : ℝ) * (1/1000)) = 1/4000000 ∧
    ((1/2000000 : ℝ)) ≠ 1/4000000 := by
  refine ⟨?_, by norm_num [adamA, AdamState.mkInit], by norm_num⟩
  have hnorm : norm2 [(1/1000 : ℝ)] = 1/1000 := norm2_singleton _ (by norm_num)
  rw [adam_call_pos (by simp)]
  simp only [adamA, AdamState.mkInit]
  norm_num [clip_gradient, ops_adam, BufMap.insert, emptyBufMap, allocate, hnorm,
    List.replicate, Option.getD]

/-- Witness for the amended C2 at a concrete input. -/
theorem C2_adam_uses_beta1_twice_witness :
    (adamC.call [0] [0] 1 (some 0)).weights =
      (ops_adam [0]
        (clip_gradient (List.zipWith (fun gi wi => gi + adamC.L2 * wi) [(0 : ℝ)] [0])
          (((List.zipWith (fun gi wi => gi + adamC.L2 * wi) [(0 : ℝ)] [0]).length : ℝ) / 100))
        ((adamC.mom1 (some 0)).getD (allocate (List.length [(0 : ℝ)])))
        ((adamC.mom2 (some 0)).getD (allocate (List.length [(0 : ℝ)])))
        adamC.b1 adamC.b1 adamC.eps (adamC.lr (adamC.nr_update (some 0) + 1) * 1)).1 ∧
    (adamC.call [0] [0] 1 (some 0)).state.mom1 (some 0) =
      some (ops_adam [0]
        (clip_gradient (List.zipWith (fun gi wi => gi + adamC.L2 * wi) [(0 : ℝ)] [0])
          (((List.zipWith (fun gi wi => gi + adamC.L2 * wi) [(0 : ℝ)] [0]).length : ℝ) / 100))
        ((adamC.mom1 (some 0)).getD (allocate (List.length [(0 : ℝ)])))
        ((adamC.mom2 (some 0)).getD (allocate (List.length [(0 : ℝ)])))
        adamC.b1 adamC.b1 adamC.eps (adamC.lr (adamC.nr_update (some 0) + 1) * 1)).2.1 ∧
    (adamC.call [0] [0] 1 (some 0)).state.mom2 (some 0) =
      some (ops_adam [0]
        (clip_gradient (List.zipWith (fun gi wi => gi + adamC.L2 * wi) [(0 : ℝ)] [0])
          (((List.zipWith (fun gi wi => gi + adamC.L2 * wi) [(0 : ℝ)] [0]).length : ℝ) / 100))
        ((adamC.mom1 (some 0)).getD (allocate (List.length [(0 : ℝ)])))
        ((adamC.mom2 (some 0)).getD (allocate (List.length [(0 : ℝ)])))
        adamC.b1 adamC.b1 adamC.eps (adamC.lr (adamC.nr_update (some 0) + 1) * 1)).2.2 :=
  C2_adam_uses_beta1_twice adamC [0] [0] 1 (some 0)
    ((adam_call_ok_iff adamC [0] [0] 1 (some 0)).2 (by simp))

/-- C4 is false on the code as claimed: an SGD update with the `None` key on
a default (averages-enabled) instance does persist a buffer created by that
call, namely an averages entry under the `None` key. -/
theorem C4_counterexample :
    (sgdA.averages.getD emptyBufMap) none = none ∧
    ((sgdA.call [0] [0] none 1).1.averages.getD emptyBufMap) none ≠ none := by
  constructor
  · rfl
  · unfold SGDState.call
    rw [if_pos (Or.inl rfl)]
    simp [sgdA, SGDState.mkInit, updateAveragesMap, BufMap.insert]

/-- C4 (amended): an SGD update with the `None` key persists no momentum
buffer, still computes the learning rate and applies the direct weight
update, and increments the `None` counter; but when running averages are
enabled the averages map does gain (or refresh) an entry under the `None`
key. -/
theorem C4_none_key (st : SGDState) (w g : Vec) (s : ℝ) :
    (st.call w g none s).1.momentums = st.momentums ∧
    (st.call w g none s).2.1 =
      List.zipWith (fun wi gi => wi - st.lr (st.nr_update none + 1) * s * gi) w
        (clip_gradient g st.max_grad_norm) ∧
    (st.call w g none s).1.nr_update none = st.nr_update none + 1 ∧
    (st.averages = none → (st.call w g none s).1.averages = none) ∧
    (∀ avs : BufMap, st.averages = some avs →
      ((st.call w g none s).1.averages.getD emptyBufMap) none ≠ none) := by
  unfold SGDState.call
  rw [if_pos (Or.inl rfl)]
  refine ⟨rfl, rfl, by simp, ?_, ?_⟩
  · intro h
    rw [h]
    rfl
  · intro avs h
    rw [h]
    simp [updateAveragesMap, BufMap.insert]

/-- Witness for the amended C4 at a concrete input. -/
theorem C4_none_key_witness :
    (sgdA.call [0] [0] none 1).1.momentums = sgdA.momentums ∧
    ((sgdA.call [0] [0] none 1).1.averages.getD emptyBufMap) none ≠ none :=
  ⟨(C4_none_key sgdA [0] [0] 1).1,
   (C4_none_key sgdA [0] [0] 1).2.2.2.2 emptyBufMap rfl⟩

/-- C6: the learning rate used for the n-th update of a key (the rate the
successful call multiplies by `lr_scale`) equals
`linear_decay(baseRate, decay, n) * sqrt(1 - beta2 ^ n) / (1 - beta1 ^ n)`
times the scale; in particular for `beta1 = beta2 = 9/10` and `n = 1` the
rate before scaling equals `alpha * sqrt 10` with
`alpha = linear_decay(baseRate, decay, 1)`. -/
theorem C6_adam_learning_rate (st : AdamState) (n : ℕ) (s : ℝ) (_hn : 1 ≤ n) :
    (st.lr n * s =
      linear_decay st.alpha st.decay n * Real.sqrt (1 - st.b2 ^ n) / (1 - st.b1 ^ n) * s) ∧
    (st.b1 = 9/10 → st.b2 = 9/10 →
      st.lr 1 = linear_decay st.alpha st.decay 1 * Real.sqrt 10) := by
  refine ⟨rfl, ?_⟩
  intro hb1 hb2
  unfold AdamState.lr
  rw [hb1, hb2]
  rw [show ((9 : ℝ)/10) ^ (1 : ℕ) = 9/10 from pow_one _]
  have hs : Real.sqrt (1 - (9 : ℝ)/10) = Real.sqrt 10 / 10 := by
    have h2 : ((Real.sqrt 10 / 10 : ℝ)) ^ 2 = 1 - (9 : ℝ)/10 := by
      rw [div_pow, Real.sq_sqrt (by norm_num : (0 : ℝ) ≤ 10)]
      norm_num
    rw [← h2, Real.sqrt_sq (by positivity)]
  rw [hs]
  ring

/-- Witness for C6 at a concrete instance with `beta1 = beta2 = 9/10`. -/
theorem C6_adam_learning_rate_witness :
    (adamB.lr 1 * 1 =
      linear_decay adamB.alpha adamB.decay 1 * Real.sqrt (1 - adamB.b2 ^ 1) /
        (1 - adamB.b1 ^ 1) * 1) ∧
    adamB.lr 1 = linear_decay adamB.alpha adamB.decay 1 * Real.sqrt 10 :=
  ⟨(C6_adam_learning_rate adamB 1 1 le_rfl).1,
   (C6_adam_learning_rate adamB 1 1 le_rfl).2 rfl rfl⟩

/-- C7 is false on the code as claimed: SGD clips the gradient to global
norm 100 before the direct update, so for the first update of a fresh key
with gradient `[200]` and base rate 1 (decay 0), the weights become `[-100]`
rather than `weights - lr(1) * gradient = [-200]`. -/
theorem C7_counterexample :
    (sgdB.call [0] [200] (some 0) 1).2.1 = [(-100 : ℝ)] ∧
    [(0 : ℝ) - sgdB.lr (sgdB.nr_update (some 0) + 1) * 1 * 200] = [(-200 : ℝ)] ∧
    ([(-100 : ℝ)] : Vec) ≠ [(-200 : ℝ)] := by
  refine ⟨?_, ?_, by simp⟩
  · have hnorm : norm2 [(200 : ℝ)] = 200 := norm2_singleton _ (by norm_num)
    unfold SGDState.call
    rw [if_pos (Or.inr (show sgdB.mu = 0 from rfl))]
    simp only [sgdB, SGDState.mkInit]
    norm_num [clip_gradient, hnorm, SGDState.lr, linear_decay]
  · norm_num [sgdB, SGDState.mkInit, SGDState.lr, linear_decay]

/-- C7 (amended): for SGD with momentum 0, the first update of a fresh key
with default scale yields `weights - lr(1) * gradient` elementwise with
`lr(1) = baseRate / (1 + decay)`, PROVIDED the global norm of the incoming
gradient does not exceed the clipping ceiling 100; otherwise the gradient is
first clipped to norm 100. -/
theorem C7_sgd_first_update (st : SGDState) (w g : Vec) (key : Key)
    (hmu : st.mu = 0) (hfresh : st.nr_update key = 0) (hmax : st.max_grad_norm = 100)
    (hnorm : norm2 g ≤ 100) :
    (st.call w g key 1).2.1 =
      List.zipWith (fun wi gi => wi - st.alpha / (1 + st.decay) * gi) w g := by
  unfold SGDState.call
  rw [if_pos (Or.inr hmu)]
  have hclip : clip_gradient g st.max_grad_norm = g := by
    unfold clip_gradient
    rw [hmax, if_pos hnorm]
  have hlr : st.lr (st.nr_update key + 1) * 1 = st.alpha / (1 + st.decay) := by
    rw [hfresh]
    simp [SGDState.lr, linear_decay]
  rw [hclip, hlr]

/-- Witness for the amended C7 at a concrete input (gradient norm 3). -/
theorem C7_sgd_first_update_witness :
    (sgdB.call [0] [3] (some 0) 1).2.1 =
      List.zipWith (fun wi gi => wi - sgdB.alpha / (1 + sgdB.decay) * gi) [(0 : ℝ)] [3] :=
  C7_sgd_first_update sgdB [0] [3] (some 0) rfl rfl rfl
    (by rw [norm2_singleton 3 (by norm_num)]; norm_num)

/-- C8: every successful Adam update first adds `L2 * weights` into the
gradient and only then clips it, and the clipped gradient fed to the fused
update has global norm at most `length(gradient) / 100`. -/
theorem C8_adam_l2_then_clip (st : AdamState) (w g : Vec) (s : ℝ) (key : Key)
    (hlen : w.length = g.length) (hok : (st.call w g s key).ok = true) :
    (st.call w g s key).weights =
      (ops_adam w
        (clip_gradient (List.zipWith (fun gi wi => gi + st.L2 * wi) g w)
          (((List.zipWith (fun gi wi => gi + st.L2 * wi) g w).length : ℝ) / 100))
        ((st.mom1 key).getD (allocate w.length)) ((st.mom2 key).getD (allocate w.length))
        st.b1 st.b1 st.eps (st.lr (st.nr_update key + 1) * s)).1 ∧
    norm2 (clip_gradient (List.zipWith (fun gi wi => gi + st.L2 * wi) g w)
        (((List.zipWith (fun gi wi => gi + st.L2 * wi) g w).length : ℝ) / 100)) ≤
      (g.length : ℝ) / 100 := by
  have h := (adam_call_ok_iff st w g s key).1 hok
  constructor
  · rw [adam_call_pos h]
  · have hlen2 : (List.zipWith (fun gi wi => gi + st.L2 * wi) g w).length = g.length := by
      rw [List.length_zipWith, hlen, min_self]
    rw [hlen2]
    exact norm2_clip_le _ _ (by positivity)

/-- Witness for C8 at a concrete input. -/
theorem C8_adam_l2_then_clip_witness :
    (adamC.call [0] [0] 1 (some 0)).weights =
      (ops_adam [0]
        (clip_gradient (List.zipWith (fun gi wi => gi + adamC.L2 * wi) [(0 : ℝ)] [0])
          (((List.zipWith (fun gi wi => gi + adamC.L2 * wi) [(0 : ℝ)] [0]).length : ℝ) / 100))
        ((adamC.mom1 (some 0)).getD (allocate (List.length [(0 : ℝ)])))
        ((adamC.mom2 (some 0)).getD (allocate (List.length [(0 : ℝ)])))
        adamC.b1 adamC.b1 adamC.eps (adamC.lr (adamC.nr_update (some 0) + 1) * 1)).1 ∧
    norm2 (clip_gradient (List.zipWith (fun gi wi => gi + adamC.L2 * wi) [(0 : ℝ)] [0])
        (((List.zipWith (fun gi wi => gi + adamC.L2 * wi) [(0 : ℝ)] [0]).length : ℝ) / 100)) ≤
      ((List.length [(0 : ℝ)] : ℕ) : ℝ) / 100 :=
  C8_adam_l2_then_clip adamC [0] [0] 1 (some 0) rfl
    ((adam_call_ok_iff adamC [0] [0] 1 (some 0)).2 (by simp))

end

end ThincOptimizers
